import Mathlib

/-!
Shallow embedding of the libOpenDRIVE road-surface evaluator (`Road.cpp`)
over exact real arithmetic.  The `double` values of the C++ code are
modelled by `ℝ`; ordered `std::map` containers keyed by start-`s` are
modelled by key-sorted association lists together with the
`upper_bound`-then-decrement lookup the code performs.
-/

noncomputable section

namespace odr

/-- Three-dimensional vector of reals, modelling the `Vec3D` array type. -/
@[ext]
structure Vec3D where
  x : ℝ
  y : ℝ
  z : ℝ

/-- Modelled from the spec: dot product of the linear-algebra primitives. -/
def dot (a b : Vec3D) : ℝ :=
  a.x * b.x + a.y * b.y + a.z * b.z

/-- Modelled from the spec: cross product of the linear-algebra primitives. -/
def crossProduct (a b : Vec3D) : Vec3D :=
  ⟨a.y * b.z - a.z * b.y, a.z * b.x - a.x * b.z, a.x * b.y - a.y * b.x⟩

/-- Euclidean norm of a `Vec3D`. -/
def norm3 (v : Vec3D) : ℝ :=
  Real.sqrt (dot v v)

/-- Modelled from the spec: normalization primitive, `v / ‖v‖` componentwise. -/
def normalize (v : Vec3D) : Vec3D :=
  ⟨v.x / norm3 v, v.y / norm3 v, v.z / norm3 v⟩

/-- Scalar multiple of a `Vec3D`. -/
def smul (c : ℝ) (v : Vec3D) : Vec3D :=
  ⟨c * v.x, c * v.y, c * v.z⟩

/-- Sum of two `Vec3D`. -/
def vadd (a b : Vec3D) : Vec3D :=
  ⟨a.x + b.x, a.y + b.y, a.z + b.z⟩

/-- Determinant of the 3×3 matrix whose columns are `a`, `b`, `c`. -/
def det3 (a b c : Vec3D) : ℝ :=
  a.x * (b.y * c.z - c.y * b.z) - b.x * (a.y * c.z - c.y * a.z) + c.x * (a.y * b.z - b.y * a.z)

/-- Row-major 3×3 matrix, modelling `Mat3D` (an array of three rows). -/
structure Mat3D where
  r0 : Vec3D
  r1 : Vec3D
  r2 : Vec3D

/-- Modelled from the spec: matrix–vector multiply of the linear-algebra primitives. -/
def MatVecMultiplication (m : Mat3D) (v : Vec3D) : Vec3D :=
  ⟨dot m.r0 v, dot m.r1 v, dot m.r2 v⟩

/-- First column of a row-major `Mat3D`. -/
def Mat3D.col0 (m : Mat3D) : Vec3D := ⟨m.r0.x, m.r1.x, m.r2.x⟩

/-- Second column of a row-major `Mat3D`. -/
def Mat3D.col1 (m : Mat3D) : Vec3D := ⟨m.r0.y, m.r1.y, m.r2.y⟩

/-- Third column of a row-major `Mat3D`. -/
def Mat3D.col2 (m : Mat3D) : Vec3D := ⟨m.r0.z, m.r1.z, m.r2.z⟩

/-- Modelled from the spec: `Poly3` with anchor `s0`, evaluated as
`a + b·u + c·u² + d·u³` where `u = s − s0`. -/
structure Poly3 where
  s0 : ℝ
  a : ℝ
  b : ℝ
  c : ℝ
  d : ℝ

/-- Modelled from the spec: evaluation of a `Poly3` at station `s`. -/
def Poly3.get (p : Poly3) (s : ℝ) : ℝ :=
  p.a + p.b * (s - p.s0) + p.c * (s - p.s0) ^ 2 + p.d * (s - p.s0) ^ 3

/-- The `std::map` lookup pattern of `Road.cpp`: `upper_bound(s)` (first key
greater than `s`) followed by a decrement unless already at `begin`, returning
the selected entry together with its successor entry when one exists.  The
association list is assumed sorted by key in ascending order. -/
def mapLookupWithNext {α : Type} (s : ℝ) : List (ℝ × α) → Option ((ℝ × α) × Option (ℝ × α))
  | [] => none
  | [e] => some (e, none)
  | e1 :: e2 :: rest => if s < e2.1 then some (e1, some e2) else mapLookupWithNext s (e2 :: rest)

/-- The selected entry of the `upper_bound`-then-decrement lookup, without its
successor. -/
def mapLookup {α : Type} (s : ℝ) (l : List (ℝ × α)) : Option (ℝ × α) :=
  Option.map Prod.fst (mapLookupWithNext s l)

/-- Modelled from the spec: a `CubicSpline` is an ordered mapping from start-`s`
to `Poly3` pieces. -/
structure CubicSpline where
  s0_to_poly : List (ℝ × Poly3)

/-- Modelled from the spec: `CubicSpline::get` selects the piece with greatest
start-`s` not exceeding `s` (the first piece when all starts exceed `s`) and
evaluates it; an empty spline evaluates to 0. -/
def CubicSpline.get (sp : CubicSpline) (s : ℝ) : ℝ :=
  match mapLookup s sp.s0_to_poly with
  | none => 0
  | some kp => kp.2.get s

/-- Side tag of a crossfall piece. -/
inductive Side where
  | Left : Side
  | Right : Side
  | Both : Side
deriving DecidableEq

/-- Exact-key lookup in the `sides` map of a `Crossfall`, defaulting to
`Side.Both` when the key is absent, as `Crossfall::get_crossfall` does. -/
def findSide : List (ℝ × Side) → ℝ → Side
  | [], _ => Side.Both
  | (k, sd) :: rest, key => if key = k then sd else findSide rest key

/-- A `Crossfall`: a cubic-spline piece map plus a per-piece side tag map. -/
structure Crossfall where
  s_start_to_poly : List (ℝ × Poly3)
  sides : List (ℝ × Side)

/-- Embedding of `Crossfall::get_crossfall` from `Road.cpp`: select the piece
by the `upper_bound`-then-decrement lookup, read its side tag (default
`Both`), return 0 for a left query on a right-only piece or a right query on a
left-only piece, otherwise evaluate the piece; an empty piece map yields 0. -/
def Crossfall.get_crossfall (cf : Crossfall) (s : ℝ) (on_left_side : Bool) : ℝ :=
  match mapLookup s cf.s_start_to_poly with
  | none => 0
  | some kp =>
      let side := findSide cf.sides kp.1
      if on_left_side = true ∧ side = Side.Right then 0
      else if on_left_side = false ∧ side = Side.Left then 0
      else kp.2.get s

/-- Lane height offset record with inner and outer heights. -/
structure HeightOffset where
  inner : ℝ
  outer : ℝ

/-- A `Lane`: id, `level` flag, inner and outer border splines, and the sparse
height-offset map keyed by `s`. -/
structure Lane where
  id : ℤ
  level : Bool
  inner_border : CubicSpline
  outer_border : CubicSpline
  s_to_height_offset : List (ℝ × HeightOffset)

/-- Embedding of the height-offset block of `Road::get_surface_pt`
(`Road.cpp` lines 121–148): when the offset map is non-empty, select the entry
by the `upper_bound`-then-decrement lookup, add the base contribution
`p_t·(outer − inner) + inner`, and when a successor entry exists additionally
add the linear-in-`s` interpolation term; an empty map contributes 0. -/
def Lane.height_offset_add (lane : Lane) (s t : ℝ) : ℝ :=
  match mapLookupWithNext s lane.s_to_height_offset with
  | none => 0
  | some (e, nxt) =>
      let t_inner_brdr := lane.inner_border.get s
      let t_outer_brdr := lane.outer_border.get s
      let inner_height := e.2.inner
      let outer_height := e.2.outer
      let p_t := if t_outer_brdr ≠ t_inner_brdr then (t - t_inner_brdr) / (t_outer_brdr - t_inner_brdr) else 0
      let base := p_t * (outer_height - inner_height) + inner_height
      match nxt with
      | none => base
      | some e2 =>
          let ds := e2.1 - e.1
          let d_lh_inner := e2.2.inner - inner_height
          let dh_inner := d_lh_inner / ds * (s - e.1)
          let d_lh_outer := e2.2.outer - outer_height
          let dh_outer := d_lh_outer / ds * (s - e.1)
          base + (p_t * (dh_outer - dh_inner) + dh_inner)

/-- Modelled from the spec: a `LaneSection` resolves, for a station `s` and a
lateral offset `t`, the lane containing `t` (with saturation to the outermost
lane).  The resolution procedure (`LaneSection::get_lane`) is not part of
`Road.cpp`, so it is kept abstract as a total function field. -/
structure LaneSection where
  s0 : ℝ
  get_lane : ℝ → ℝ → Lane

/-- Modelled from the spec: a `RefLine` exposes `get_xyz` (world point at
station `s`, elevation applied) and `get_grad` (3D tangent).  The piecewise
geometry dispatch is external to `Road.cpp`, so both are abstract function
fields. -/
structure RefLine where
  get_xyz : ℝ → Vec3D
  get_grad : ℝ → Vec3D

/-- Modelled from the spec: the reference line of a straight `Line` geometry
starting at `(x0, y0)` with heading `hdg0` at `s = 0` and zero elevation:
point `(x0 + s·cos hdg0, y0 + s·sin hdg0, 0)` and constant unit tangent. -/
def lineRefLine (x0 y0 hdg0 : ℝ) : RefLine where
  get_xyz := fun s => ⟨x0 + s * Real.cos hdg0, y0 + s * Real.sin hdg0, 0⟩
  get_grad := fun _ => ⟨Real.cos hdg0, Real.sin hdg0, 0⟩

/-- A `Road`: id, length, reference line, superelevation and crossfall
profiles, and the ordered lane-section map keyed by start-`s`. -/
structure Road where
  id : String
  length : ℝ
  ref_line : RefLine
  superelevation : CubicSpline
  crossfall : Crossfall
  s_to_lanesection : List (ℝ × LaneSection)

/-- Embedding of `Road::get_lanesection`: the `upper_bound`-then-decrement
lookup on the lane-section map, `none` when the map is empty. -/
def Road.get_lanesection (road : Road) (s : ℝ) : Option LaneSection :=
  Option.map Prod.snd (mapLookup s road.s_to_lanesection)

/-- Embedding of `Road::get_transformation_matrix` (`Road.cpp` lines 82–94). -/
def Road.get_transformation_matrix (road : Road) (s : ℝ) : Mat3D :=
  let s_vec := road.ref_line.get_grad s
  let superelevation := road.superelevation.get s
  let e_t := normalize ⟨-s_vec.y, s_vec.x, Real.tan superelevation * |s_vec.y|⟩
  let e_h := normalize (crossProduct s_vec e_t)
  let p0 := road.ref_line.get_xyz s
  ⟨⟨e_t.x, e_h.x, p0.x⟩, ⟨e_t.y, e_h.y, p0.y⟩, ⟨e_t.z, e_h.z, p0.z⟩⟩

/-- Embedding of `Road::get_xyz` (`Road.cpp` lines 74–80). -/
def Road.get_xyz (road : Road) (s t h : ℝ) : Vec3D :=
  MatVecMultiplication (road.get_transformation_matrix s) ⟨t, h, 1⟩

/-- Embedding of the lateral-slope part of `Road::get_surface_pt`
(`Road.cpp` lines 105–119): the crossfall/superelevation height `h_t` before
the height-offset block. -/
def Road.surface_slope_height (road : Road) (lane : Lane) (s t : ℝ) : ℝ :=
  let t_inner_brdr := lane.inner_border.get s
  if lane.level = true then
    let h_inner_brdr := -Real.tan (road.crossfall.get_crossfall s (decide (lane.id > 0))) * |t_inner_brdr|
    let superelev := road.superelevation.get s
    h_inner_brdr + Real.tan superelev * (t - t_inner_brdr)
  else
    -Real.tan (road.crossfall.get_crossfall s (decide (lane.id > 0))) * |t|

/-- Embedding of `Road::get_surface_pt` (`Road.cpp` lines 96–148): fall back
to `get_xyz(s, t, 0)` when no lane section resolves, otherwise resolve the
lane, compute the slope height, add the height-offset contribution, and return
`get_xyz(s, t, h_t)`. -/
def Road.get_surface_pt (road : Road) (s t : ℝ) : Vec3D :=
  match road.get_lanesection s with
  | none => road.get_xyz s t 0
  | some lanesection =>
      let lane := lanesection.get_lane s t
      let h_t := road.surface_slope_height lane s t + lane.height_offset_add s t
      road.get_xyz s t h_t

/-- The diagnostic lines emitted by `Road::get_surface_pt`: the `printf` on
the missing-lane-section path prints the road id and the station `s`, and
nothing is printed otherwise. -/
def Road.surface_diagnostics (road : Road) (s : ℝ) : List (String × ℝ) :=
  match road.get_lanesection s with
  | none => [(road.id, s)]
  | some _ => []

/-! Helper lemmas on the vector primitives. -/

lemma dot_self_nonneg (v : Vec3D) : 0 ≤ dot v v := by
  unfold dot
  nlinarith [sq_nonneg v.x, sq_nonneg v.y, sq_nonneg v.z]

lemma norm3_sq (v : Vec3D) : norm3 v ^ 2 = dot v v :=
  Real.sq_sqrt (dot_self_nonneg v)

lemma norm3_pos {v : Vec3D} (h : dot v v ≠ 0) : 0 < norm3 v :=
  Real.sqrt_pos.mpr (lt_of_le_of_ne (dot_self_nonneg v) (Ne.symm h))

lemma dot_normalize_self {v : Vec3D} (h : dot v v ≠ 0) :
    dot (normalize v) (normalize v) = 1 := by
  have hn : (0 : ℝ) < norm3 v := norm3_pos h
  have hne : norm3 v ≠ 0 := ne_of_gt hn
  have step : dot (normalize v) (normalize v) = dot v v / norm3 v ^ 2 := by
    unfold normalize dot
    rw [div_mul_div_comm, div_mul_div_comm, div_mul_div_comm, div_add_div_same,
      div_add_div_same, pow_two]
  rw [step, norm3_sq, div_self h]

lemma norm3_normalize {v : Vec3D} (h : dot v v ≠ 0) : norm3 (normalize v) = 1 := by
  unfold norm3
  rw [dot_normalize_self h, Real.sqrt_one]

lemma dot_cross_right (g a : Vec3D) : dot a (crossProduct g a) = 0 := by
  unfold dot crossProduct
  ring

lemma lagrange_identity (g v : Vec3D) :
    dot (crossProduct g v) (crossProduct g v) = dot g g * dot v v - dot g v ^ 2 := by
  unfold dot crossProduct
  ring

lemma crossProduct_normalize (g v : Vec3D) :
    crossProduct g (normalize v) =
      ⟨(crossProduct g v).x / norm3 v, (crossProduct g v).y / norm3 v,
        (crossProduct g v).z / norm3 v⟩ := by
  unfold crossProduct normalize
  ext <;> dsimp <;> ring

lemma dot_scaled (w : Vec3D) (n : ℝ) :
    dot ⟨w.x / n, w.y / n, w.z / n⟩ ⟨w.x / n, w.y / n, w.z / n⟩ = dot w w / n ^ 2 := by
  unfold dot
  rw [div_mul_div_comm, div_mul_div_comm, div_mul_div_comm, div_add_div_same,
    div_add_div_same, pow_two]

lemma dot_normalize_left (a v : Vec3D) : dot (normalize v) a = dot v a / norm3 v := by
  unfold normalize dot
  rw [div_mul_eq_mul_div, div_mul_eq_mul_div, div_mul_eq_mul_div, div_add_div_same,
    div_add_div_same]

lemma det3_as_dot (a b g : Vec3D) : det3 a b g = dot b (crossProduct g a) := by
  unfold det3 dot crossProduct
  ring

lemma sq_sum_pos {a b : ℝ} (h : ¬(a = 0 ∧ b = 0)) : 0 < a ^ 2 + b ^ 2 := by
  rcases not_and_or.mp h with h' | h'
  · have ha : 0 < |a| := abs_pos.mpr h'
    have : 0 < |a| ^ 2 := pow_pos ha 2
    rw [sq_abs] at this
    nlinarith [sq_nonneg b]
  · have hb : 0 < |b| := abs_pos.mpr h'
    have : 0 < |b| ^ 2 := pow_pos hb 2
    rw [sq_abs] at this
    nlinarith [sq_nonneg a]

/-- C1: `Road::get_transformation_matrix(s)` is the 3×3 matrix whose columns
are `e_t = normalize((−g_y, g_x, tan(φ)·|g_y|))`, `e_h = normalize(g × e_t)`
and `p0 = ref_line.get_xyz(s)` with `g = ref_line.get_grad(s)` and
`φ = superelevation.get(s)`, and `Road::get_xyz(s, t, h) = M(s)·(t, h, 1)`,
i.e. `t·e_t + h·e_h + p0`. -/
theorem transformation_matrix_columns_and_xyz (road : Road) (s t h : ℝ) :
    (road.get_transformation_matrix s).col0 =
        normalize ⟨-(road.ref_line.get_grad s).y, (road.ref_line.get_grad s).x,
          Real.tan (road.superelevation.get s) * |(road.ref_line.get_grad s).y|⟩ ∧
    (road.get_transformation_matrix s).col1 =
        normalize (crossProduct (road.ref_line.get_grad s)
          ((road.get_transformation_matrix s).col0)) ∧
    (road.get_transformation_matrix s).col2 = road.ref_line.get_xyz s ∧
    road.get_xyz s t h =
        vadd (vadd (smul t ((road.get_transformation_matrix s).col0))
                   (smul h ((road.get_transformation_matrix s).col1)))
             (road.ref_line.get_xyz s) := by
  refine ⟨rfl, rfl, rfl, ?_⟩
  simp only [Road.get_xyz, Road.get_transformation_matrix, MatVecMultiplication,
    Mat3D.col0, Mat3D.col1, vadd, smul, dot]
  ext <;> dsimp <;> ring

/-- C7: at a station where the planar tangent points along the x-axis
(`g_y = 0`), the lateral axis `e_t` of the transformation matrix has zero
z-component, so `get_xyz(s, t, 0)` has the reference line's z regardless of
the superelevation. -/
theorem xaxis_heading_no_superelev_lift (road : Road) (s t : ℝ)
    (hy : (road.ref_line.get_grad s).y = 0)
    (_hx : (road.ref_line.get_grad s).x ≠ 0) :
    ((road.get_transformation_matrix s).col0).z = 0 ∧
    (road.get_xyz s t 0).z = (road.ref_line.get_xyz s).z := by
  constructor
  · simp [Road.get_transformation_matrix, Mat3D.col0, normalize, hy]
  · simp [Road.get_xyz, Road.get_transformation_matrix, MatVecMultiplication, dot,
      normalize, hy]

lemma dot_normalize_right (a v : Vec3D) : dot a (normalize v) = dot a v / norm3 v := by
  unfold normalize dot
  rw [← mul_div_assoc, ← mul_div_assoc, ← mul_div_assoc, div_add_div_same, div_add_div_same]

/-- Core geometric content of the frame construction: for any unit tangent `g`
with non-zero planar part and any roll factor `T`, the two normalized axes are
orthonormal and the frame is right-handed. -/
lemma frame_core (g : Vec3D) (T : ℝ) (hg : dot g g = 1) (hp : 0 < g.x ^ 2 + g.y ^ 2) :
    dot (normalize ⟨-g.y, g.x, T * |g.y|⟩)
        (normalize (crossProduct g (normalize ⟨-g.y, g.x, T * |g.y|⟩))) = 0 ∧
    norm3 (normalize ⟨-g.y, g.x, T * |g.y|⟩) = 1 ∧
    norm3 (normalize (crossProduct g (normalize ⟨-g.y, g.x, T * |g.y|⟩))) = 1 ∧
    0 < det3 (normalize ⟨-g.y, g.x, T * |g.y|⟩)
        (normalize (crossProduct g (normalize ⟨-g.y, g.x, T * |g.y|⟩))) g := by
  have hg' : g.x * g.x + g.y * g.y + g.z * g.z = 1 := hg
  have huu : dot ⟨-g.y, g.x, T * |g.y|⟩ ⟨-g.y, g.x, T * |g.y|⟩ =
      g.x ^ 2 + g.y ^ 2 + T ^ 2 * g.y ^ 2 := by
    have step : dot ⟨-g.y, g.x, T * |g.y|⟩ ⟨-g.y, g.x, T * |g.y|⟩ =
        g.x ^ 2 + g.y ^ 2 + T ^ 2 * |g.y| ^ 2 := by
      unfold dot
      ring
    rw [step, sq_abs]
  have hupos : 0 < dot ⟨-g.y, g.x, T * |g.y|⟩ ⟨-g.y, g.x, T * |g.y|⟩ := by
    rw [huu]
    nlinarith [mul_nonneg (sq_nonneg T) (sq_nonneg g.y)]
  have hune : dot ⟨-g.y, g.x, T * |g.y|⟩ ⟨-g.y, g.x, T * |g.y|⟩ ≠ 0 := ne_of_gt hupos
  have hgu : dot g ⟨-g.y, g.x, T * |g.y|⟩ = T * |g.y| * g.z := by
    unfold dot
    ring
  have hww : dot (crossProduct g (normalize ⟨-g.y, g.x, T * |g.y|⟩))
      (crossProduct g (normalize ⟨-g.y, g.x, T * |g.y|⟩)) =
      (dot g g * dot ⟨-g.y, g.x, T * |g.y|⟩ ⟨-g.y, g.x, T * |g.y|⟩ -
        dot g ⟨-g.y, g.x, T * |g.y|⟩ ^ 2) / norm3 ⟨-g.y, g.x, T * |g.y|⟩ ^ 2 := by
    rw [crossProduct_normalize, dot_scaled, lagrange_identity]
  have hnum : dot g g * dot ⟨-g.y, g.x, T * |g.y|⟩ ⟨-g.y, g.x, T * |g.y|⟩ -
      dot g ⟨-g.y, g.x, T * |g.y|⟩ ^ 2 = (g.x ^ 2 + g.y ^ 2) * (1 + T ^ 2 * g.y ^ 2) := by
    rw [hg, huu, hgu]
    rw [show (T * |g.y| * g.z) ^ 2 = T ^ 2 * |g.y| ^ 2 * g.z ^ 2 by rw [mul_pow, mul_pow]]
    rw [sq_abs]
    linear_combination (-(T ^ 2 * g.y ^ 2)) * hg'
  have hwpos : 0 < dot (crossProduct g (normalize ⟨-g.y, g.x, T * |g.y|⟩))
      (crossProduct g (normalize ⟨-g.y, g.x, T * |g.y|⟩)) := by
    rw [hww, hnum]
    have h2 : (0 : ℝ) < 1 + T ^ 2 * g.y ^ 2 := by positivity
    have h3 : (0 : ℝ) < norm3 ⟨-g.y, g.x, T * |g.y|⟩ ^ 2 := pow_pos (norm3_pos hune) 2
    exact div_pos (mul_pos hp h2) h3
  have hwne : dot (crossProduct g (normalize ⟨-g.y, g.x, T * |g.y|⟩))
      (crossProduct g (normalize ⟨-g.y, g.x, T * |g.y|⟩)) ≠ 0 := ne_of_gt hwpos
  refine ⟨?_, norm3_normalize hune, norm3_normalize hwne, ?_⟩
  · rw [dot_normalize_right, dot_cross_right, zero_div]
  · rw [det3_as_dot, dot_normalize_left]
    exact div_pos hwpos (norm3_pos hwne)

/-- C5: at every station where the reference-line gradient is a unit vector
with non-zero planar part, the columns `e_t` and `e_h` of
`Road::get_transformation_matrix(s)` satisfy `e_t · e_h = 0`,
`‖e_t‖ = ‖e_h‖ = 1`, and the frame `(e_t, e_h, g)` is right-handed
(`det > 0`). -/
theorem frame_orthonormal_right_handed (road : Road) (s : ℝ)
    (hg : norm3 (road.ref_line.get_grad s) = 1)
    (hp : ¬((road.ref_line.get_grad s).x = 0 ∧ (road.ref_line.get_grad s).y = 0)) :
    dot ((road.get_transformation_matrix s).col0) ((road.get_transformation_matrix s).col1) = 0 ∧
    norm3 ((road.get_transformation_matrix s).col0) = 1 ∧
    norm3 ((road.get_transformation_matrix s).col1) = 1 ∧
    0 < det3 ((road.get_transformation_matrix s).col0) ((road.get_transformation_matrix s).col1)
        (road.ref_line.get_grad s) := by
  have hdot : dot (road.ref_line.get_grad s) (road.ref_line.get_grad s) = 1 := by
    rw [← norm3_sq, hg]
    norm_num
  have hpos : 0 < (road.ref_line.get_grad s).x ^ 2 + (road.ref_line.get_grad s).y ^ 2 :=
    sq_sum_pos hp
  exact frame_core (road.ref_line.get_grad s) (Real.tan (road.superelevation.get s)) hdot hpos

/-! Concrete instances used by the end-to-end scenarios. -/

/-- An empty cubic spline (evaluates to 0 everywhere). -/
def emptySpline : CubicSpline := ⟨[]⟩

/-- A crossfall with no pieces. -/
def emptyCrossfall : Crossfall := ⟨[], []⟩

/-- A constant polynomial piece anchored at `s0 = 0`. -/
def constPoly (v : ℝ) : Poly3 := ⟨0, v, 0, 0, 0⟩

/-- A single-piece constant spline. -/
def constSpline (v : ℝ) : CubicSpline := ⟨[(0, constPoly v)]⟩

/-- Straight road: `Line` from `(0,0)` heading 0, length 100, zero
elevation/superelevation/crossfall, no lane sections. -/
def roadFlat : Road := ⟨"flat", 100, lineRefLine 0 0 0, emptySpline, emptyCrossfall, []⟩

/-- Straight road as `roadFlat` but with constant superelevation `0.1` rad. -/
def roadSuper : Road := ⟨"super", 100, lineRefLine 0 0 0, constSpline 0.1, emptyCrossfall, []⟩

/-- Witness for C5: the straight flat road at station 50 satisfies the
hypotheses, and its frame is orthonormal and right-handed. -/
theorem frame_orthonormal_right_handed_w :
    (norm3 (roadFlat.ref_line.get_grad 50) = 1 ∧
      ¬((roadFlat.ref_line.get_grad 50).x = 0 ∧ (roadFlat.ref_line.get_grad 50).y = 0)) ∧
    (dot ((roadFlat.get_transformation_matrix 50).col0)
        ((roadFlat.get_transformation_matrix 50).col1) = 0 ∧
      norm3 ((roadFlat.get_transformation_matrix 50).col0) = 1 ∧
      norm3 ((roadFlat.get_transformation_matrix 50).col1) = 1 ∧
      0 < det3 ((roadFlat.get_transformation_matrix 50).col0)
          ((roadFlat.get_transformation_matrix 50).col1) (roadFlat.ref_line.get_grad 50)) := by
  have h1 : norm3 (roadFlat.ref_line.get_grad 50) = 1 := by
    norm_num [roadFlat, lineRefLine, norm3, dot, Real.cos_zero, Real.sin_zero, Real.sqrt_one]
  have h2 : ¬((roadFlat.ref_line.get_grad 50).x = 0 ∧ (roadFlat.ref_line.get_grad 50).y = 0) := by
    norm_num [roadFlat, lineRefLine, Real.cos_zero]
  exact ⟨⟨h1, h2⟩, frame_orthonormal_right_handed roadFlat 50 h1 h2⟩

/-- Witness for C7: the superelevated straight road at station 50 has a
tangent along the x-axis, and the claimed equalities hold there. -/
theorem xaxis_heading_no_superelev_lift_w :
    ((roadSuper.ref_line.get_grad 50).y = 0 ∧ (roadSuper.ref_line.get_grad 50).x ≠ 0) ∧
    (((roadSuper.get_transformation_matrix 50).col0).z = 0 ∧
      (roadSuper.get_xyz 50 1.5 0).z = (roadSuper.ref_line.get_xyz 50).z) := by
  have h1 : (roadSuper.ref_line.get_grad 50).y = 0 := by
    norm_num [roadSuper, lineRefLine, Real.sin_zero]
  have h2 : (roadSuper.ref_line.get_grad 50).x ≠ 0 := by
    norm_num [roadSuper, lineRefLine, Real.cos_zero]
  exact ⟨⟨h1, h2⟩, xaxis_heading_no_superelev_lift roadSuper 50 1.5 h1 h2⟩

lemma roadSuper_xyz_z : (roadSuper.get_xyz 50 1.5 0).z = 0 := by
  norm_num [roadSuper, lineRefLine, Road.get_xyz, Road.get_transformation_matrix,
    MatVecMultiplication, dot, normalize, Real.sin_zero, Real.cos_zero]

/-- C6 counterexample: on the straight heading-0 road with constant
superelevation `0.1`, `get_xyz(50, 1.5, 0)` has z-coordinate 0, while the
claimed value `1.5·sin(0.1)` exceeds `0.1`, so the claim fails. -/
theorem straight_superelev_claimed_lift_false :
    (roadSuper.get_xyz 50 1.5 0).z = 0 ∧ (0.1 : ℝ) < 1.5 * Real.sin 0.1 := by
  refine ⟨roadSuper_xyz_z, ?_⟩
  have h := Real.sin_gt_sub_cube (by norm_num : (0 : ℝ) < 0.1) (by norm_num : (0.1 : ℝ) ≤ 1)
  nlinarith [h]

/-- C6 amended: on that road `get_xyz(50, 1.5, 0) = (50, 1.5, 0)`: the
superelevation produces no vertical lift because the tangent's y-component is
0, so the `tan(φ)·|g_y|` term of the lateral axis vanishes. -/
theorem straight_superelev_no_lift :
    roadSuper.get_xyz 50 1.5 0 = ⟨50, 1.5, 0⟩ := by
  ext <;>
    norm_num [roadSuper, lineRefLine, Road.get_xyz, Road.get_transformation_matrix,
      MatVecMultiplication, dot, normalize, norm3, Real.sin_zero, Real.cos_zero, Real.sqrt_one]

/-! Characterization of the `upper_bound`-then-decrement lookup on sorted
association lists. -/

lemma mapLookupWithNext_skip {α : Type} (s : ℝ) (p e : ℝ × α) (l : List (ℝ × α))
    (he : e.1 ≤ s) :
    mapLookupWithNext s (p :: e :: l) = mapLookupWithNext s (e :: l) := by
  simp only [mapLookupWithNext]
  rw [if_neg (not_lt.mpr he)]

lemma mapLookupWithNext_sel {α : Type} (s : ℝ) (pre : List (ℝ × α)) (k : ℝ) (v : α)
    (rest : List (ℝ × α))
    (hsort : List.Pairwise (fun a b => a.1 < b.1) (pre ++ (k, v) :: rest))
    (hsel : (k ≤ s ∧ ∀ e ∈ rest, s < e.1) ∨ (pre = [] ∧ s < k)) :
    mapLookupWithNext s (pre ++ (k, v) :: rest) = some ((k, v), rest.head?) := by
  induction pre with
  | nil =>
      cases rest with
      | nil => rfl
      | cons e2 r =>
          have he2 : s < e2.1 := by
            rcases hsel with ⟨_, hrest⟩ | ⟨_, hsk⟩
            · exact hrest e2 (List.mem_cons_self e2 r)
            · have hke2 : k < e2.1 :=
                (List.pairwise_cons.mp hsort).1 e2 (List.mem_cons_self e2 r)
              exact lt_trans hsk hke2
          simp only [List.nil_append, mapLookupWithNext]
          rw [if_pos he2]
          rfl
  | cons p pre' ih =>
      have hsel' : k ≤ s ∧ ∀ e ∈ rest, s < e.1 := by
        rcases hsel with h | ⟨habs, _⟩
        · exact h
        · exact absurd habs (List.cons_ne_nil p pre')
      have htail : List.Pairwise (fun a b => a.1 < b.1) (pre' ++ (k, v) :: rest) :=
        (List.pairwise_cons.mp hsort).2
      cases hpre' : pre' with
      | nil =>
          subst hpre'
          have hskip := mapLookupWithNext_skip s p (k, v) rest hsel'.1
          simp only [List.nil_append] at htail ⊢
          rw [List.cons_append, List.nil_append, hskip]
          exact ih htail (Or.inl hsel')
      | cons q pre'' =>
          subst hpre'
          have hqk : q.1 < k := by
            have hq : q ∈ (q :: pre'') ++ (k, v) :: rest := by
              exact List.mem_append_left _ (List.mem_cons_self q pre'')
            have hkmem : (k, v) ∈ pre'' ++ (k, v) :: rest :=
              List.mem_append_right _ (List.mem_cons_self (k, v) rest)
            have := (List.pairwise_cons.mp htail).1 (k, v) hkmem
            exact this
          have hqs : q.1 ≤ s := le_of_lt (lt_of_lt_of_le hqk hsel'.1)
          have hskip := mapLookupWithNext_skip s p q (pre'' ++ (k, v) :: rest) hqs
          exact hskip.trans (ih htail (Or.inl hsel'))

lemma mapLookupWithNext_isSome {α : Type} (s : ℝ) (l : List (ℝ × α)) (hl : l ≠ []) :
    ∃ r, mapLookupWithNext s l = some r := by
  induction l with
  | nil => exact absurd rfl hl
  | cons a l' ih =>
      cases l' with
      | nil => exact ⟨(a, none), rfl⟩
      | cons b l'' =>
          by_cases h : s < b.1
          · exact ⟨(a, some b), by simp [mapLookupWithNext, h]⟩
          · obtain ⟨r, hr⟩ := ih (List.cons_ne_nil b l'')
            exact ⟨r, by simp [mapLookupWithNext, h, hr]⟩

/-- C10: for a road with sorted lane-section keys, `get_lanesection(s)` is
`none` exactly when the road has no lane sections, and otherwise returns the
section with greatest start-`s` not exceeding `s` (the first section when
every start exceeds `s`); being out of range never triggers the fallback. -/
theorem get_lanesection_selection (road : Road) (s : ℝ)
    (hsort : List.Pairwise (fun a b => a.1 < b.1) road.s_to_lanesection) :
    (road.get_lanesection s = none ↔ road.s_to_lanesection = []) ∧
    (∀ pre k sec rest, road.s_to_lanesection = pre ++ (k, sec) :: rest →
      ((k ≤ s ∧ ∀ e ∈ rest, s < e.1) ∨ (pre = [] ∧ s < k)) →
      road.get_lanesection s = some sec) := by
  constructor
  · constructor
    · intro h
      by_contra hne
      obtain ⟨r, hr⟩ := mapLookupWithNext_isSome s road.s_to_lanesection hne
      simp [Road.get_lanesection, mapLookup, hr] at h
    · intro h
      simp [Road.get_lanesection, mapLookup, h, mapLookupWithNext]
  · intro pre k sec rest hdec hsel
    have hmap := mapLookupWithNext_sel s pre k sec rest (hdec ▸ hsort) hsel
    simp [Road.get_lanesection, mapLookup, hdec, hmap]

/-- A lane used by the concrete scenarios: left lane, inner border 0, outer
border 3, not level, no height offsets. -/
def laneFlat : Lane := ⟨1, false, constSpline 0, constSpline 3, []⟩

/-- A lane section whose resolution always yields `laneFlat`. -/
def sectionFlat : LaneSection := ⟨0, fun _ _ => laneFlat⟩

/-- Straight flat road with a single lane section at `s = 0`. -/
def roadOneSec : Road :=
  ⟨"onesec", 100, lineRefLine 0 0 0, emptySpline, emptyCrossfall, [(0, sectionFlat)]⟩

/-- Witness for C10: the one-section road resolves its section at `s = 50`. -/
theorem get_lanesection_selection_w :
    List.Pairwise (fun a b => a.1 < b.1) roadOneSec.s_to_lanesection ∧
    roadOneSec.get_lanesection 50 = some sectionFlat := by
  have hsort : List.Pairwise (fun a b => a.1 < b.1) roadOneSec.s_to_lanesection := by
    simp [roadOneSec]
  refine ⟨hsort, ?_⟩
  exact (get_lanesection_selection roadOneSec 50 hsort).2 [] 0 sectionFlat [] rfl
    (Or.inl ⟨by norm_num, by simp⟩)

/-- C9: when no lane section resolves at `s`, `get_surface_pt(s, t)` returns
exactly `get_xyz(s, t, 0)` (a total fallback, not a failure), and the
diagnostic channel holds the single line with the road id and `s`. -/
theorem missing_lanesection_fallback (road : Road) (s t : ℝ)
    (h : road.get_lanesection s = none) :
    road.get_surface_pt s t = road.get_xyz s t 0 ∧
    road.surface_diagnostics s = [(road.id, s)] := by
  constructor
  · simp [Road.get_surface_pt, h]
  · simp [Road.surface_diagnostics, h]

/-- Witness for C9: the flat road with no lane sections takes the fallback at
`s = 50`. -/
theorem missing_lanesection_fallback_w :
    roadFlat.get_lanesection 50 = none ∧
    (roadFlat.get_surface_pt 50 1.5 = roadFlat.get_xyz 50 1.5 0 ∧
      roadFlat.surface_diagnostics 50 = [(roadFlat.id, 50)]) := by
  have h : roadFlat.get_lanesection 50 = none := by
    simp [roadFlat, Road.get_lanesection, mapLookup, mapLookupWithNext]
  exact ⟨h, missing_lanesection_fallback roadFlat 50 1.5 h⟩

/-- A crossfall with a single left-only constant piece of value `0.05`. -/
def crossfallLeft : Crossfall := ⟨[(0, constPoly 0.05)], [(0, Side.Left)]⟩

/-- C4: `get_crossfall` on a sorted non-empty crossfall returns 0 exactly when
the selected piece's side tag is `Right` on a left query or `Left` on a right
query, and the piece's `Poly3` value otherwise; the single left-only piece of
value 0.05 gives 0 on the right and 0.05 on the left; an empty crossfall gives
0 everywhere. -/
theorem crossfall_sidedness (cf : Crossfall) (s : ℝ) (onl : Bool)
    (hsort : List.Pairwise (fun a b => a.1 < b.1) cf.s_start_to_poly) :
    (cf.s_start_to_poly = [] → cf.get_crossfall s onl = 0) ∧
    (∀ pre k poly rest, cf.s_start_to_poly = pre ++ (k, poly) :: rest →
      ((k ≤ s ∧ ∀ e ∈ rest, s < e.1) ∨ (pre = [] ∧ s < k)) →
      cf.get_crossfall s onl =
        if (onl = true ∧ findSide cf.sides k = Side.Right) ∨
            (onl = false ∧ findSide cf.sides k = Side.Left) then 0
        else poly.get s) ∧
    (crossfallLeft.get_crossfall s false = 0 ∧ crossfallLeft.get_crossfall s true = 0.05) := by
  refine ⟨?_, ?_, ?_, ?_⟩
  · intro h
    simp [Crossfall.get_crossfall, mapLookup, h, mapLookupWithNext]
  · intro pre k poly rest hdec hsel
    have hmap : mapLookup s cf.s_start_to_poly = some (k, poly) := by
      have := mapLookupWithNext_sel s pre k poly rest (hdec ▸ hsort) hsel
      simp [mapLookup, hdec, this]
    simp only [Crossfall.get_crossfall, hmap]
    split_ifs <;> first | rfl | tauto
  · norm_num [crossfallLeft, Crossfall.get_crossfall, mapLookup, mapLookupWithNext,
      findSide, constPoly, Poly3.get]
  · norm_num [crossfallLeft, Crossfall.get_crossfall, mapLookup, mapLookupWithNext,
      findSide, constPoly, Poly3.get]
    decide

/-- Witness for C4: the left-only crossfall at `s = 3`, left query, evaluates
to its piece's value through the theorem. -/
theorem crossfall_sidedness_w :
    List.Pairwise (fun a b => a.1 < b.1) crossfallLeft.s_start_to_poly ∧
    crossfallLeft.get_crossfall 3 true =
      (if (true = true ∧ findSide crossfallLeft.sides 0 = Side.Right) ∨
          (true = false ∧ findSide crossfallLeft.sides 0 = Side.Left) then 0
       else (constPoly 0.05).get 3) := by
  have hsort : List.Pairwise (fun a b => a.1 < b.1) crossfallLeft.s_start_to_poly := by
    simp [crossfallLeft]
  refine ⟨hsort, ?_⟩
  exact (crossfall_sidedness crossfallLeft 3 true hsort).2.1 [] 0 (constPoly 0.05) [] rfl
    (Or.inl ⟨by norm_num, by simp⟩)

/-- C2: whenever `get_surface_pt(s, t)` resolves a lane section and a lane,
the slope height it uses is `−tan(α)·|t|` for a non-`level` lane, and
`−tan(α)·|t_in| + tan(φ)·(t − t_in)` for a `level` lane, with
`α = crossfall.get_crossfall(s, lane.id > 0)`, `φ = superelevation.get(s)`,
`t_in = lane.inner_border.get(s)`: crossfall is cancelled at the inner border
and the superelevation slope is applied outward. -/
theorem surface_slope_height_formula (road : Road) (sec : LaneSection) (lane : Lane) (s t : ℝ)
    (hsec : road.get_lanesection s = some sec) (hlane : sec.get_lane s t = lane) :
    road.get_surface_pt s t =
      road.get_xyz s t
        ((if lane.level = true
          then -Real.tan (road.crossfall.get_crossfall s (decide (lane.id > 0))) *
                |lane.inner_border.get s| +
              Real.tan (road.superelevation.get s) * (t - lane.inner_border.get s)
          else -Real.tan (road.crossfall.get_crossfall s (decide (lane.id > 0))) * |t|) +
          lane.height_offset_add s t) := by
  simp only [Road.get_surface_pt, hsec, hlane, Road.surface_slope_height]

/-- Lane with two height-offset entries `{0 ↦ (0, 0.1), 10 ↦ (0.05, 0.2)}`,
inner border 0, outer border 3, not level. -/
def laneOffsets : Lane :=
  ⟨1, false, constSpline 0, constSpline 3, [(0, ⟨0, 0.1⟩), (10, ⟨0.05, 0.2⟩)]⟩

/-- A lane section whose resolution always yields `laneOffsets`. -/
def sectionOffsets : LaneSection := ⟨0, fun _ _ => laneOffsets⟩

/-- Straight flat road carrying `sectionOffsets` at `s = 0`. -/
def roadOffsets : Road :=
  ⟨"offs", 100, lineRefLine 0 0 0, emptySpline, emptyCrossfall, [(0, sectionOffsets)]⟩

lemma roadOffsets_sec : roadOffsets.get_lanesection 5 = some sectionOffsets := by
  simp [roadOffsets, Road.get_lanesection, mapLookup, mapLookupWithNext]

/-- Witness for C2: the offsets road at `s = 5`, `t = 3` resolves `laneOffsets`
(not level), and the surface point uses the non-level slope height. -/
theorem surface_slope_height_formula_w :
    (roadOffsets.get_lanesection 5 = some sectionOffsets ∧
      sectionOffsets.get_lane 5 3 = laneOffsets) ∧
    roadOffsets.get_surface_pt 5 3 =
      roadOffsets.get_xyz 5 3
        ((if laneOffsets.level = true
          then -Real.tan (roadOffsets.crossfall.get_crossfall 5 (decide (laneOffsets.id > 0))) *
                |laneOffsets.inner_border.get 5| +
              Real.tan (roadOffsets.superelevation.get 5) * (3 - laneOffsets.inner_border.get 5)
          else -Real.tan (roadOffsets.crossfall.get_crossfall 5 (decide (laneOffsets.id > 0))) *
              |(3 : ℝ)|) +
          laneOffsets.height_offset_add 5 3) := by
  refine ⟨⟨roadOffsets_sec, rfl⟩, ?_⟩
  exact surface_slope_height_formula roadOffsets sectionOffsets laneOffsets 5 3 roadOffsets_sec rfl

/-- C3: with a sorted non-empty height-offset map, the contribution that
`get_surface_pt` adds to the slope height is the base term
`p_t·(outer − inner) + inner` of the selected entry (greatest key ≤ s, or the
first entry when every key exceeds `s`), plus — exactly when a successor entry
exists — the linear term
`p_t·(Δouter/Δs − Δinner/Δs)·(s − s_entry) + (Δinner/Δs)·(s − s_entry)`. -/
theorem height_offset_contribution (road : Road) (sec : LaneSection) (lane : Lane) (s t : ℝ)
    (hsec : road.get_lanesection s = some sec) (hlane : sec.get_lane s t = lane)
    (hsort : List.Pairwise (fun a b => a.1 < b.1) lane.s_to_height_offset)
    (pre rest : List (ℝ × HeightOffset)) (s_entry : ℝ) (ho : HeightOffset)
    (hdec : lane.s_to_height_offset = pre ++ (s_entry, ho) :: rest)
    (hsel : (s_entry ≤ s ∧ ∀ e ∈ rest, s < e.1) ∨ (pre = [] ∧ s < s_entry)) :
    road.get_surface_pt s t =
      road.get_xyz s t (road.surface_slope_height lane s t +
        ((if lane.outer_border.get s ≠ lane.inner_border.get s
          then (t - lane.inner_border.get s) /
              (lane.outer_border.get s - lane.inner_border.get s)
          else 0) * (ho.outer - ho.inner) + ho.inner +
         (match rest.head? with
          | none => 0
          | some e2 =>
              (if lane.outer_border.get s ≠ lane.inner_border.get s
                then (t - lane.inner_border.get s) /
                    (lane.outer_border.get s - lane.inner_border.get s)
                else 0) *
                  ((e2.2.outer - ho.outer) / (e2.1 - s_entry) -
                    (e2.2.inner - ho.inner) / (e2.1 - s_entry)) * (s - s_entry) +
                (e2.2.inner - ho.inner) / (e2.1 - s_entry) * (s - s_entry)))) := by
  have hmap : mapLookupWithNext s lane.s_to_height_offset = some ((s_entry, ho), rest.head?) := by
    rw [hdec]
    exact mapLookupWithNext_sel s pre s_entry ho rest (hdec ▸ hsort) hsel
  simp only [Road.get_surface_pt, hsec, hlane]
  congr 1
  congr 1
  simp only [Lane.height_offset_add, hmap]
  cases hh : rest.head? with
  | none => simp only []; ring
  | some e2 => simp only []; ring

/-- Witness for C3: the offsets road at `s = 5`, `t = 3`, with the first entry
selected and the `s = 10` entry as successor. -/
theorem height_offset_contribution_w :
    (roadOffsets.get_lanesection 5 = some sectionOffsets ∧
      sectionOffsets.get_lane 5 3 = laneOffsets ∧
      List.Pairwise (fun a b => a.1 < b.1) laneOffsets.s_to_height_offset ∧
      laneOffsets.s_to_height_offset =
        [] ++ ((0 : ℝ), (⟨0, 0.1⟩ : HeightOffset)) :: [((10 : ℝ), (⟨0.05, 0.2⟩ : HeightOffset))] ∧
      ((0 : ℝ) ≤ 5 ∧ ∀ e ∈ [((10 : ℝ), (⟨0.05, 0.2⟩ : HeightOffset))], (5 : ℝ) < e.1)) ∧
    roadOffsets.get_surface_pt 5 3 =
      roadOffsets.get_xyz 5 3 (roadOffsets.surface_slope_height laneOffsets 5 3 +
        ((if laneOffsets.outer_border.get 5 ≠ laneOffsets.inner_border.get 5
          then ((3 : ℝ) - laneOffsets.inner_border.get 5) /
              (laneOffsets.outer_border.get 5 - laneOffsets.inner_border.get 5)
          else 0) * (0.1 - 0) + 0 +
         ((if laneOffsets.outer_border.get 5 ≠ laneOffsets.inner_border.get 5
            then ((3 : ℝ) - laneOffsets.inner_border.get 5) /
                (laneOffsets.outer_border.get 5 - laneOffsets.inner_border.get 5)
            else 0) * ((0.2 - 0.1) / (10 - 0) - (0.05 - 0) / (10 - 0)) * (5 - 0) +
          (0.05 - 0) / (10 - 0) * (5 - 0)))) := by
  have hsort : List.Pairwise (fun a b => a.1 < b.1) laneOffsets.s_to_height_offset := by
    norm_num [laneOffsets, List.pairwise_cons]
  have hrest : ∀ e ∈ [((10 : ℝ), (⟨0.05, 0.2⟩ : HeightOffset))], (5 : ℝ) < e.1 := by
    intro e he
    rw [List.mem_singleton] at he
    subst he
    norm_num
  refine ⟨⟨roadOffsets_sec, rfl, hsort, rfl, by norm_num, hrest⟩, ?_⟩
  exact height_offset_contribution roadOffsets sectionOffsets laneOffsets 5 3 roadOffsets_sec
    rfl hsort [] [((10 : ℝ), (⟨0.05, 0.2⟩ : HeightOffset))] 0 ⟨0, 0.1⟩ rfl
    (Or.inl ⟨by norm_num, hrest⟩)

lemma laneOffsets_outer : laneOffsets.outer_border.get 5 = 3 := by
  norm_num [laneOffsets, constSpline, constPoly, CubicSpline.get, mapLookup,
    mapLookupWithNext, Poly3.get]

lemma laneOffsets_height_add : laneOffsets.height_offset_add 5 3 = 0.15 := by
  norm_num [laneOffsets, Lane.height_offset_add, mapLookupWithNext, constSpline, constPoly,
    CubicSpline.get, mapLookup, Poly3.get]

/-- C8 counterexample: for the two-entry height-offset lane at `s = 5` and
`t = t_out`, the added height is not the claimed `0.175`. -/
theorem lane_height_offset_claim_false :
    laneOffsets.height_offset_add 5 (laneOffsets.outer_border.get 5) ≠ 0.175 := by
  rw [laneOffsets_outer, laneOffsets_height_add]
  norm_num

/-- C8 amended: that added height equals `0.15`, the linear interpolation of
the outer height at `s = 5` (the code interpolates inner and outer heights in
`s` and blends them with `p_t`; at `t = t_out`, `p_t = 1`, giving the
interpolated outer height `(0.1 + 0.2)/2 = 0.15`). -/
theorem lane_height_offset_value :
    laneOffsets.height_offset_add 5 (laneOffsets.outer_border.get 5) = 0.15 := by
  rw [laneOffsets_outer]
  exact laneOffsets_height_add

end odr
